import Mathlib

/-!
Verification development for the statistics web application in `src/app.py`
("Scientific Stat Engine: International Edition").

Shallow embedding conventions:
* Python floats (sample values and p-values) are modelled as rationals `ℚ`;
  the thresholds `0.05` and `0.001` are exact in both the source and here.
* The five statistical capabilities (`scipy.stats.shapiro`, `levene`,
  `ttest_ind`, `mannwhitneyu`, `f_oneway`, `kruskal`) and the two post-hoc
  capabilities (`pairwise_tukeyhsd`, `posthoc_dunn`) are external libraries;
  following the app's use of them, each is modelled as an opaque-to-the-core
  total function returning the p-value (the discarded statistic is omitted),
  bundled in a `StatCaps` record that the pipeline receives as a parameter.
* Python's string formatting `f"{p:.4f}"` and `f"{p:.2e}"` is modelled by
  `fix4` and `sci2` below: decimal rounding is half-to-even, matching the
  round-trip behaviour of CPython's float formatting on the decimal values
  that occur in the specification examples.
-/

/-- A decimal digit character: `digitArt n` is the character for `n < 10`. -/
def digitArt (n : ℕ) : Char := Char.ofNat (48 + n)

/-- Decimal digits of `n`, most significant first, with explicit fuel
(`fuel` at least the digit count; callers pass `n + 1`). -/
def natDigits : ℕ → ℕ → List Char
  | 0, _ => []
  | f + 1, n => if n < 10 then [digitArt n] else natDigits f (n / 10) ++ [digitArt (n % 10)]

/-- Decimal rendering of a natural number, as Python's `str` produces. -/
def natStr (n : ℕ) : String := String.mk (natDigits (n + 1) n)

/-- Left-pad a digit list with '0' to width `w`. -/
def padZeros (s : List Char) (w : ℕ) : List Char := List.replicate (w - s.length) '0' ++ s

/-- Round-half-to-even of the fraction `a / b` (`b > 0`) to an integer, the
rounding CPython's float formatting applies to the decimal expansion. -/
def rndFrac (a b : ℤ) : ℤ :=
  let f := Int.fdiv a b
  let r2 := 2 * (a - f * b)
  if r2 < b then f else if b < r2 then f + 1 else if f % 2 = 0 then f else f + 1

/-- Round-half-to-even of `x * s`, computed on the numerator and denominator. -/
def rndScaled (x : ℚ) (s : ℕ) : ℤ := rndFrac (x.num * s) x.den

/-- Fixed-point digits for a nonnegative numerator `n` of `n / 10^4`:
integer part, a dot, then 4 zero-padded fractional digits. -/
def fix4core (n : ℕ) : String :=
  natStr (n / 10000) ++ "." ++ String.mk (padZeros (natDigits (n % 10000 + 1) (n % 10000)) 4)

/-- Python's `f"{x:.4f}"` on the rational model of `x`. -/
def fix4 (x : ℚ) : String :=
  let n := rndScaled x 10000
  if n < 0 then "-" ++ fix4core n.natAbs else fix4core n.toNat

/-- Base-10 logarithm (rounded down) of a positive natural number, computed
as its decimal digit count minus one. -/
def natLog10 (n : ℕ) : ℕ := (natDigits (n + 1) n).length - 1

/-- Largest `e : ℤ` with `10 ^ e ≤ x`, for positive rational `x`. -/
def floorLog10 (x : ℚ) : ℤ :=
  let n := x.num.toNat
  let d := x.den
  if d * 10 ^ natLog10 n ≤ n * 10 ^ natLog10 d
  then (natLog10 n : ℤ) - natLog10 d
  else (natLog10 n : ℤ) - natLog10 d - 1

/-- Render mantissa hundredths `r` (in `[100, 999]`) and exponent `e` as
Python scientific notation, e.g. `mantExp 100 (-5) = "1.00e-05"`. -/
def mantExp (r : ℕ) (e : ℤ) : String :=
  natStr (r / 100) ++ "." ++ String.mk (padZeros (natDigits (r % 100 + 1) (r % 100)) 2) ++
    "e" ++ (if e < 0 then "-" else "+") ++ String.mk (padZeros (natDigits (e.natAbs + 1) e.natAbs) 2)

/-- Scientific notation for a positive rational: mantissa in `[1, 10)`
rounded to two fractional digits, with carry into the exponent.
The mantissa hundredths are `round (x * 100 / 10 ^ e)` computed on the
numerator and denominator. -/
def sci2pos (x : ℚ) : String :=
  let e := floorLog10 x
  let r := (if 0 ≤ e then rndFrac (x.num * 100) ((x.den * 10 ^ e.toNat : ℕ) : ℤ)
            else rndFrac (x.num * 100 * ((10 ^ (-e).toNat : ℕ) : ℤ)) x.den).toNat
  if 1000 ≤ r then mantExp 100 (e + 1) else mantExp r e

/-- Python's `f"{x:.2e}"` on the rational model of `x`. -/
def sci2 (x : ℚ) : String :=
  if x = 0 then "0.00e+00" else if x < 0 then "-" ++ sci2pos (-x) else sci2pos x

/-! ## Data model

A group as it enters the analysis engine: its name and its parsed numeric
values (`data_dict` items in `src/app.py`). -/

/-- A named group of observations. -/
abbrev GroupData := String × List ℚ

/-- The statistical capabilities the app calls (`scipy.stats`,
`statsmodels`, `scikit_posthocs`), modelled as p-value-returning functions;
the discarded statistic component is omitted.  `ttest_ind` receives the
`equal_var` keyword argument as its boolean parameter. -/
structure StatCaps where
  shapiro : List ℚ → ℚ
  levene : List (List ℚ) → ℚ
  ttest_ind : List ℚ → List ℚ → Bool → ℚ
  mannwhitneyu : List ℚ → List ℚ → ℚ
  f_oneway : List (List ℚ) → ℚ
  kruskal : List (List ℚ) → ℚ
  tukey : List ℚ → List String → List (List String)
  dunn : List (List ℚ) → List (List ℚ)

/-- A post-hoc table displayed by the app: either the Tukey HSD results
table or the Dunn (Bonferroni-adjusted) matrix. -/
inductive Posthoc where
  | tukey (table : List (List String))
  | dunn (table : List (List ℚ))

/-- Method name shown for the pooled two-sample t-test. -/
def studentT : String := "Student\x27s t-test"

/-- Method name shown for the unpooled two-sample t-test. -/
def welchT : String := "Welch\x27s t-test"

/-- Method name shown for the two-sample rank test. -/
def mannWhitney : String := "Mann-Whitney U-test"

/-- Method name shown for the parametric omnibus branch. -/
def anovaTukey : String := "One-way ANOVA + Tukey\x27s HSD"

/-- Method name shown for the non-parametric omnibus branch. -/
def kruskalW : String := "Kruskal-Wallis test (Non-parametric)"

/-- Outcome of the test-dispatch section of the app (`method`, `p_final`,
`p_disp` and the optional post-hoc table). -/
structure BranchOut where
  method : String
  p_final : ℚ
  p_disp : String
  posthoc : Option Posthoc

/-- Everything one run of the analysis block computes and renders. -/
structure RunResult where
  all_normal : Bool
  is_equal_var : Bool
  method : String
  p_final : ℚ
  p_disp : String
  posthoc : Option Posthoc
  is_sig : Bool
  jp_reason : String
  en_reason : String
  jp_report : String
  en_report : String

/-- JP rationale, parametric branch. -/
def jpReason1 : String := "データの分布が偏っておらず、バラツキも均一だったため、標準的なt検定/ANOVAを選択しました。"

/-- EN rationale, parametric branch. -/
def enReason1 : String := "Since the data followed a normal distribution with equal variance, a parametric test (t-test/ANOVA) was selected."

/-- JP rationale, non-normal branch. -/
def jpReason2 : String := "データに外れ値や偏りが見られたため、順位を重視するノンパラメトリック検定を選択しました。"

/-- EN rationale, non-normal branch. -/
def enReason2 : String := "Due to the presence of outliers or non-normal distribution, a non-parametric test was selected for robustness."

/-- JP rationale, unequal-variance branch. -/
def jpReason3 : String := "バラツキが群間で異なっていたため、ウェルチの補正を行いました。"

/-- EN rationale, unequal-variance branch. -/
def enReason3 : String := "Due to unequal variances, Welch\x27s correction was applied."

/-- The three-way rationale selection (`if all_normal and is_equal_var: ...
elif not all_normal: ... else: ...`), returning the JP and EN sentences. -/
def selectReason (an ev : Bool) : String × String :=
  if an && ev then (jpReason1, enReason1)
  else if !an then (jpReason2, enReason2)
  else (jpReason3, enReason3)

/-- JP verdict text chosen by `is_sig`. -/
def jpVerdict (sig : Bool) : String := if sig then "有意差あり" else "有意差なし"

/-- EN verdict text chosen by `is_sig`. -/
def enVerdict (sig : Bool) : String := if sig then "Significant Difference Found" else "No Significant Difference"

/-- The JP report f-string of the app, as a function of its interpolated
values. -/
def mkJpReport (method jpr : String) (sig : Bool) (pd : String) : String :=
  "【解析報告書】\n" ++ "1. 手法: " ++ method ++ "\n" ++
    "2. 理由: " ++ jpr ++ "\n" ++
    "3. 結果: " ++ jpVerdict sig ++ " " ++ "(P=" ++ pd ++ ")" ++ "\n"

/-- The EN report f-string of the app, as a function of its interpolated
values. -/
def mkEnReport (method enr : String) (sig : Bool) (pd : String) : String :=
  "【Statistical Analysis Report】\n" ++ "1. Method: " ++ method ++ "\n" ++
    "2. Rationale: " ++ enr ++ "\n" ++
    "3. Results: " ++ enVerdict sig ++ " " ++ "(P=" ++ pd ++ ")" ++ "\n" ++
    "4. Conclusion: " ++ "Based on the " ++ method ++ ", the null hypothesis was " ++
    (if sig then "rejected" else "not rejected") ++ "." ++ "\n"

/-- The `all_normal` accumulator: starts `True` and is and-ed with
`shapiro(v).pvalue > 0.05` for every group, in order. -/
def all_normal_of (caps : StatCaps) (dd : List GroupData) : Bool :=
  dd.all fun p => decide (caps.shapiro p.2 > mkRat 1 20)

/-- The flag `is_equal_var = levene(*values).pvalue > 0.05`, one joint call. -/
def is_equal_var_of (caps : StatCaps) (dd : List GroupData) : Bool :=
  decide (caps.levene (dd.map Prod.snd) > mkRat 1 20)

/-- The `flat_data` argument passed to `pairwise_tukeyhsd`. -/
def flatData (dd : List GroupData) : List ℚ := (dd.map Prod.snd).flatten

/-- The `labels` argument passed to `pairwise_tukeyhsd`. -/
def flatLabels (dd : List GroupData) : List String :=
  (dd.map fun p => List.replicate p.2.length p.1).flatten

/-- The test-dispatch section: 2-group comparison when `rest = []`
(`len(data_dict) == 2`), otherwise the 3-or-more-group comparison.
Mirrors lines 57-100 of `src/app.py`: method label, `p_final`, `p_disp`
(note the Kruskal-Wallis branch formats with `:.4f` only) and the
post-hoc table gated on `p < 0.05`. -/
def runBranch (caps : StatCaps) (g1 g2 : GroupData) (rest : List GroupData)
    (an ev : Bool) : BranchOut :=
  match rest with
  | [] =>
    if an then
      let method := if ev then studentT else welchT
      let pf := caps.ttest_ind g1.2 g2.2 ev
      ⟨method, pf, if pf < mkRat 1 1000 then sci2 pf else fix4 pf, none⟩
    else
      let pf := caps.mannwhitneyu g1.2 g2.2
      ⟨mannWhitney, pf, if pf < mkRat 1 1000 then sci2 pf else fix4 pf, none⟩
  | _ :: _ =>
    let dd := g1 :: g2 :: rest
    if an && ev then
      let pf := caps.f_oneway (dd.map Prod.snd)
      ⟨anovaTukey, pf, if pf < mkRat 1 1000 then sci2 pf else fix4 pf,
        if pf < mkRat 1 20 then some (.tukey (caps.tukey (flatData dd) (flatLabels dd))) else none⟩
    else
      let pf := caps.kruskal (dd.map Prod.snd)
      ⟨kruskalW, pf, fix4 pf,
        if pf < mkRat 1 20 then some (.dunn (caps.dunn (dd.map Prod.snd))) else none⟩

/-- One full run of the analysis block (lines 40-135 of `src/app.py`) on a
`data_dict` with at least two entries `g1 :: g2 :: rest`: assumption flags,
test dispatch, significance call and the two reports. -/
def analyzeCore (caps : StatCaps) (g1 g2 : GroupData) (rest : List GroupData) : RunResult :=
  let dd := g1 :: g2 :: rest
  let an := all_normal_of caps dd
  let ev := is_equal_var_of caps dd
  let b := runBranch caps g1 g2 rest an ev
  let sig := decide (b.p_final < mkRat 1 20)
  { all_normal := an
    is_equal_var := ev
    method := b.method
    p_final := b.p_final
    p_disp := b.p_disp
    posthoc := b.posthoc
    is_sig := sig
    jp_reason := (selectReason an ev).1
    en_reason := (selectReason an ev).2
    jp_report := mkJpReport b.method (selectReason an ev).1 sig b.p_disp
    en_report := mkEnReport b.method (selectReason an ev).2 sig b.p_disp }

/-- The guarded analysis: the block runs only under `len(data_dict) >= 2`. -/
def analyze (caps : StatCaps) (dd : List GroupData) : Option RunResult :=
  match dd with
  | g1 :: g2 :: rest => some (analyzeCore caps g1 g2 rest)
  | _ => none

/-- Python dict assignment `data_dict[name] = vals`: if the key is present
its value is replaced in place (keeping the original position), otherwise
the pair is appended. -/
def dictInsert : List GroupData → String → List ℚ → List GroupData
  | [], k, v => [(k, v)]
  | q :: t, k, v => if q.1 = k then (k, v) :: t else q :: dictInsert t k v

/-- One iteration of the input loop (lines 32-37 of `src/app.py`): a group
enters `data_dict` only when it has at least 3 parsed values. -/
def buildStep (d : List GroupData) (p : GroupData) : List GroupData :=
  if 3 ≤ p.2.length then dictInsert d p.1 p.2 else d

/-- The `data_dict` built from the supplied groups in input order. -/
def buildDataDict (inputs : List GroupData) : List GroupData :=
  inputs.foldl buildStep []

/-- The `data_dict[k]` lookup in the association-list model of the dict. -/
def dictLookup (k : String) (d : List GroupData) : Option (List ℚ) :=
  (d.find? fun q => decide (q.1 = k)).map Prod.snd

/-- What the page shows below the input area: either the full analysis or
the informational idle message of the `else` branch. -/
inductive AppOutput where
  | analysis (r : RunResult)
  | info (msg : String)

/-- The whole script per invocation: build `data_dict` from the supplied
groups, then either run the analysis block or show the idle message. -/
def app (caps : StatCaps) (inputs : List GroupData) : AppOutput :=
  match analyze caps (buildDataDict inputs) with
  | some r => AppOutput.analysis r
  | none => AppOutput.info "Please input data for at least 2 groups."

/-! ## Specification-side reference definitions

These two definitions are transcribed from the words of the specification
(not from the source) and exist only to be compared with the behaviour of
the embedded code. -/

/-- The section 4.2 decision table of the specification, keyed on the group
count and the two assumption flags. -/
def specMethodTable (count : ℕ) (an ev : Bool) : String :=
  if count = 2 then
    if an then (if ev then studentT else welchT) else mannWhitney
  else
    if an && ev then anovaTukey else kruskalW

/-- The specification's p-value display rule: scientific notation with two
significant digits below 0.001, else fixed four decimals. -/
def specPDisp (p : ℚ) : String :=
  if p < mkRat 1 1000 then sci2 p else fix4 p

/-! ## Concrete inputs used by witnesses and counterexamples -/

/-- Demonstration capabilities used by the witnesses: fixed p-values. -/
def demoCaps : StatCaps where
  shapiro := fun _ => mkRat 1 2
  levene := fun _ => mkRat 1 2
  ttest_ind := fun _ _ _ => mkRat 3 100
  mannwhitneyu := fun _ _ => mkRat 1 2
  f_oneway := fun _ => mkRat 1 100
  kruskal := fun _ => mkRat 1 100000
  tukey := fun _ _ => []
  dunn := fun _ => []

/-- Two concrete groups for the witnesses. -/
def demoData : List GroupData := [("Group 1", [10, 12, 11]), ("Group 2", [20, 22, 21])]

/-- The concrete run of `demoCaps` on `demoData`. -/
def demoRun : RunResult := analyzeCore demoCaps ("Group 1", [10, 12, 11]) ("Group 2", [20, 22, 21]) []

/-- A supplied list with only one valid group (the second has fewer than 3
values and is filtered out before `data_dict`). -/
def shortData : List GroupData := [("Group 1", [1, 2, 5]), ("Group 2", [3])]

/-- An input whose first group is three identical values (zero variance). -/
def degData : List GroupData := [("A", [5, 5, 5]), ("B", [1, 2, 3])]

/-- Capabilities steering a run into the Kruskal-Wallis branch with a tiny
omnibus p-value. -/
def kwCaps : StatCaps := { demoCaps with shapiro := fun _ => mkRat 1 100 }

/-- Three concrete groups. -/
def kwData : List GroupData := [("A", [1, 2, 3]), ("B", [4, 5, 6]), ("C", [7, 8, 9])]

/-- Capabilities steering a two-group run into the Welch branch. -/
def wCaps : StatCaps := { demoCaps with levene := fun _ => mkRat 1 100 }

/-- The concrete Welch run of `wCaps` on `demoData`. -/
def wRun : RunResult := analyzeCore wCaps ("Group 1", [10, 12, 11]) ("Group 2", [20, 22, 21]) []

/-- Every character a formatted p-value can contain. -/
def pdispChars : List Char := ['0', '1', '2', '3', '4', '5', '6', '7', '8', '9', '.', '-', '+', 'e']

/-- First-of-two option choice (Python dict lookup fallback shape). -/
def optOr {α : Type} (x y : Option α) : Option α :=
  match x with
  | some a => some a
  | none => y

/-! ## Sanity checks of the formatting model -/

example : fix4 (mkRat 321 10000) = "0.0321" := by decide
example : fix4 (mkRat 999 1000) = "0.9990" := by decide
example : fix4 (mkRat 1 100000) = "0.0000" := by decide
example : sci2 (mkRat 1 100000) = "1.00e-05" := by decide
example : sci2 (mkRat 5 10000) = "5.00e-04" := by decide

/-! ## Projection lemmas for the pipeline -/

/-- The flags stored in the result are the computed flags. -/
theorem analyzeCore_all_normal (caps : StatCaps) (g1 g2 : GroupData) (rest : List GroupData) :
    (analyzeCore caps g1 g2 rest).all_normal = all_normal_of caps (g1 :: g2 :: rest) := rfl

/-- The variance flag stored in the result is the computed flag. -/
theorem analyzeCore_is_equal_var (caps : StatCaps) (g1 g2 : GroupData) (rest : List GroupData) :
    (analyzeCore caps g1 g2 rest).is_equal_var = is_equal_var_of caps (g1 :: g2 :: rest) := rfl

/-- The result's test fields are those of the dispatched branch. -/
theorem analyzeCore_branch (caps : StatCaps) (g1 g2 : GroupData) (rest : List GroupData) :
    (analyzeCore caps g1 g2 rest).method =
      (runBranch caps g1 g2 rest (all_normal_of caps (g1 :: g2 :: rest))
        (is_equal_var_of caps (g1 :: g2 :: rest))).method ∧
    (analyzeCore caps g1 g2 rest).p_final =
      (runBranch caps g1 g2 rest (all_normal_of caps (g1 :: g2 :: rest))
        (is_equal_var_of caps (g1 :: g2 :: rest))).p_final ∧
    (analyzeCore caps g1 g2 rest).p_disp =
      (runBranch caps g1 g2 rest (all_normal_of caps (g1 :: g2 :: rest))
        (is_equal_var_of caps (g1 :: g2 :: rest))).p_disp ∧
    (analyzeCore caps g1 g2 rest).posthoc =
      (runBranch caps g1 g2 rest (all_normal_of caps (g1 :: g2 :: rest))
        (is_equal_var_of caps (g1 :: g2 :: rest))).posthoc :=
  ⟨rfl, rfl, rfl, rfl⟩

/-- An analysis that produced a result had at least two groups, and the
result is `analyzeCore` on them. -/
theorem analyze_some_shape (caps : StatCaps) (dd : List GroupData) (r : RunResult)
    (h : analyze caps dd = some r) :
    ∃ g1 g2 rest, dd = g1 :: g2 :: rest ∧ r = analyzeCore caps g1 g2 rest := by
  match dd with
  | [] => simp [analyze] at h
  | [g1] => simp [analyze] at h
  | g1 :: g2 :: rest =>
    refine ⟨g1, g2, rest, rfl, ?_⟩
    simpa [analyze] using h.symm

/-! ## Claim C1: the method follows the decision table -/

/-- Claim C1: for every analysis run with at least 2 valid groups, the
chosen method is exactly the one given by the section 4.2 decision table on
the group count and the flags `all_normal` and `equal_variance`; the choice
depends only on those three values. -/
theorem method_matches_spec_table (caps : StatCaps) (dd : List GroupData) (r : RunResult)
    (h : analyze caps dd = some r) :
    r.method = specMethodTable dd.length r.all_normal r.is_equal_var := by
  obtain ⟨g1, g2, rest, hdd, hr⟩ := analyze_some_shape caps dd r h
  subst hdd; subst hr
  rw [(analyzeCore_branch caps g1 g2 rest).1, analyzeCore_all_normal, analyzeCore_is_equal_var]
  cases rest with
  | nil =>
    cases all_normal_of caps [g1, g2] <;> cases is_equal_var_of caps [g1, g2] <;>
      simp [runBranch, specMethodTable]
  | cons g3 tl =>
    have hne : (g1 :: g2 :: g3 :: tl).length ≠ 2 := by simp
    cases all_normal_of caps (g1 :: g2 :: g3 :: tl) <;>
      cases is_equal_var_of caps (g1 :: g2 :: g3 :: tl) <;>
      simp [runBranch, specMethodTable, hne]

/-- Witness for claim C1 at a concrete input. -/
theorem method_matches_spec_table_witness :
    analyze demoCaps demoData = some demoRun ∧
    demoRun.method = specMethodTable demoData.length demoRun.all_normal demoRun.is_equal_var :=
  ⟨rfl, method_matches_spec_table demoCaps demoData demoRun rfl⟩

/-! ## Claim C7: assumption flags -/

/-- Claim C7: `all_normal` holds iff every per-group Shapiro p-value is
strictly greater than 0.05, and `equal_variance` holds iff the single joint
Levene p-value is strictly greater than 0.05; the threshold is 0.05. -/
theorem assumption_flags_thresholds (caps : StatCaps) (dd : List GroupData) (r : RunResult)
    (h : analyze caps dd = some r) :
    (r.all_normal = true ↔ ∀ g ∈ dd, caps.shapiro g.2 > mkRat 1 20) ∧
    (r.is_equal_var = true ↔ caps.levene (dd.map Prod.snd) > mkRat 1 20) := by
  obtain ⟨g1, g2, rest, hdd, hr⟩ := analyze_some_shape caps dd r h
  subst hdd; subst hr
  rw [analyzeCore_all_normal, analyzeCore_is_equal_var]
  constructor
  · simp [all_normal_of, List.all_eq_true]
  · simp [is_equal_var_of]

/-- Witness for claim C7 at a concrete input. -/
theorem assumption_flags_thresholds_witness :
    analyze demoCaps demoData = some demoRun ∧
    ((demoRun.all_normal = true ↔ ∀ g ∈ demoData, demoCaps.shapiro g.2 > mkRat 1 20) ∧
      (demoRun.is_equal_var = true ↔ demoCaps.levene (demoData.map Prod.snd) > mkRat 1 20)) :=
  ⟨rfl, assumption_flags_thresholds demoCaps demoData demoRun rfl⟩

/-! ## Claim C4: post-hoc gating -/

/-- A `p < 0.05`-gated optional value is present iff the gate is open. -/
theorem isSome_gate (p : ℚ) (x : Posthoc) (n : ℕ) (h3 : 3 ≤ n) :
    (if p < mkRat 1 20 then some x else none).isSome = true ↔ (3 ≤ n ∧ p < mkRat 1 20) := by
  split <;> simp_all

/-- Claim C4: a post-hoc table is produced if and only if the group count
is at least 3 and the omnibus p-value is strictly below 0.05. -/
theorem posthoc_gating (caps : StatCaps) (dd : List GroupData) (r : RunResult)
    (h : analyze caps dd = some r) :
    r.posthoc.isSome = true ↔ (3 ≤ dd.length ∧ r.p_final < mkRat 1 20) := by
  obtain ⟨g1, g2, rest, hdd, hr⟩ := analyze_some_shape caps dd r h
  subst hdd; subst hr
  rw [(analyzeCore_branch caps g1 g2 rest).2.2.2, (analyzeCore_branch caps g1 g2 rest).2.1]
  cases rest with
  | nil =>
    cases all_normal_of caps [g1, g2] <;> cases is_equal_var_of caps [g1, g2] <;>
      simp [runBranch]
  | cons g3 tl =>
    cases all_normal_of caps (g1 :: g2 :: g3 :: tl) <;>
      cases is_equal_var_of caps (g1 :: g2 :: g3 :: tl) <;>
      exact isSome_gate _ _ _ (by simp)

/-- Witness for claim C4 at a concrete input. -/
theorem posthoc_gating_witness :
    analyze demoCaps demoData = some demoRun ∧
    (demoRun.posthoc.isSome = true ↔ (3 ≤ demoData.length ∧ demoRun.p_final < mkRat 1 20)) :=
  ⟨rfl, posthoc_gating demoCaps demoData demoRun rfl⟩

/-! ## Claim C8: fewer than 2 valid groups -/

/-- Claim C8: with fewer than 2 valid groups the script shows the
informational idle message, produces no report, and invokes no statistical
capability — the outcome does not depend on the capabilities at all. -/
theorem insufficient_groups_idle (caps : StatCaps) (inputs : List GroupData)
    (h : (buildDataDict inputs).length < 2) :
    app caps inputs = AppOutput.info "Please input data for at least 2 groups." ∧
    ∀ caps2 : StatCaps, app caps2 inputs = app caps inputs := by
  have key : ∀ c : StatCaps, analyze c (buildDataDict inputs) = none := by
    intro c
    match hdd : buildDataDict inputs with
    | [] => simp [analyze]
    | [g] => simp [analyze]
    | g1 :: g2 :: rest => rw [hdd] at h; simp at h; omega
  refine ⟨?_, fun caps2 => ?_⟩
  · simp [app, key caps]
  · simp [app, key caps, key caps2]

/-- Witness for claim C8 at a concrete input. -/
theorem insufficient_groups_idle_witness :
    (buildDataDict shortData).length < 2 ∧
    app demoCaps shortData = AppOutput.info "Please input data for at least 2 groups." :=
  ⟨by decide, (insufficient_groups_idle demoCaps shortData (by decide)).1⟩

/-! ## Claim C3: zero-variance groups (corrected)

The source has no degenerate-input guard and no `DegenerateInputError`:
lines 43-51 compare whatever p-values the capabilities return against
0.05 and the run continues to a report, also when a group is constant. -/

/-- Counterexample to claim C3 as stated: on a two-group input whose first
group has exactly 3 identical values, the analysis completes and produces a
report (method chosen, reports rendered) instead of raising a
`DegenerateInputError` and producing none. -/
theorem degenerate_input_cex :
    (analyze demoCaps degData).isSome = true ∧
    (analyze demoCaps degData).map RunResult.method = some studentT ∧
    (analyze demoCaps degData).map RunResult.is_sig = some true := by
  refine ⟨rfl, rfl, rfl⟩

/-- Claim C3 (amended): the code contains no zero-variance guard — for any
capability outcomes, an input with at least 2 valid groups among which one
is constant (three identical values) is analyzed like any other and a
result with its reports is produced; no error state exists. -/
theorem degenerate_input_still_reported (caps : StatCaps) (dd : List GroupData)
    (h2 : 2 ≤ dd.length) (hdeg : ∃ p ∈ dd, ∃ c : ℚ, p.2 = [c, c, c]) :
    (analyze caps dd).isSome = true := by
  match dd with
  | [] => simp at h2
  | [g] => simp at h2
  | g1 :: g2 :: rest => simp [analyze]

/-- Witness for the amended claim C3 at a concrete input. -/
theorem degenerate_input_still_reported_witness :
    (2 ≤ degData.length ∧ ∃ p ∈ degData, ∃ c : ℚ, p.2 = [c, c, c]) ∧
    (analyze demoCaps degData).isSome = true :=
  ⟨⟨by decide, ("A", [5, 5, 5]), by decide, 5, rfl⟩,
    degenerate_input_still_reported demoCaps degData (by decide)
      ⟨("A", [5, 5, 5]), by decide, 5, rfl⟩⟩

/-! ## Claim C2: p-value display formatting (corrected)

The two-group and ANOVA branches format with
`f"{p:.2e}" if p < 0.001 else f"{p:.4f}"`, but the Kruskal-Wallis branch
(line 93 of `src/app.py`) formats with `f"{p_kw:.4f}"` unconditionally. -/

/-- Counterexample to claim C2 as stated: in the Kruskal-Wallis branch a
rendered p-value of 0.00001 (which is below 0.001) is formatted as
"0.0000", not as the scientific-notation string "1.00e-05". -/
theorem kruskal_format_cex :
    (analyze kwCaps kwData).map RunResult.method = some kruskalW ∧
    (analyze kwCaps kwData).map RunResult.p_final = some (mkRat 1 100000) ∧
    mkRat 1 100000 < mkRat 1 1000 ∧
    (analyze kwCaps kwData).map RunResult.p_disp = some "0.0000" ∧
    "0.0000" ≠ "1.00e-05" :=
  ⟨rfl, rfl, by decide, rfl, by decide⟩

/-- Each dispatch branch either is the Kruskal-Wallis branch and formats
with fixed four decimals only, or is not and follows the spec rule. -/
theorem runBranch_pdisp_char (caps : StatCaps) (g1 g2 : GroupData) (rest : List GroupData)
    (an ev : Bool) :
    ((runBranch caps g1 g2 rest an ev).method = kruskalW ∧
      (runBranch caps g1 g2 rest an ev).p_disp = fix4 (runBranch caps g1 g2 rest an ev).p_final) ∨
    ((runBranch caps g1 g2 rest an ev).method ≠ kruskalW ∧
      (runBranch caps g1 g2 rest an ev).p_disp = specPDisp (runBranch caps g1 g2 rest an ev).p_final) := by
  cases rest with
  | nil =>
    cases an <;> cases ev
    · exact Or.inr ⟨show mannWhitney ≠ kruskalW by decide, rfl⟩
    · exact Or.inr ⟨show mannWhitney ≠ kruskalW by decide, rfl⟩
    · exact Or.inr ⟨show welchT ≠ kruskalW by decide, rfl⟩
    · exact Or.inr ⟨show studentT ≠ kruskalW by decide, rfl⟩
  | cons g3 tl =>
    cases an <;> cases ev
    · exact Or.inl ⟨rfl, rfl⟩
    · exact Or.inl ⟨rfl, rfl⟩
    · exact Or.inl ⟨rfl, rfl⟩
    · exact Or.inr ⟨show anovaTukey ≠ kruskalW by decide, rfl⟩

/-- Claim C2 (amended): outside the Kruskal-Wallis branch the rendered
p-value follows the display rule (scientific notation with 2 significant
digits below 0.001, fixed 4 decimals otherwise) with the documented
examples; the Kruskal-Wallis branch always renders fixed 4 decimals. -/
theorem p_disp_rule_per_branch (caps : StatCaps) (dd : List GroupData) (r : RunResult)
    (h : analyze caps dd = some r) :
    (r.method ≠ kruskalW → r.p_disp = specPDisp r.p_final) ∧
    (r.method = kruskalW → r.p_disp = fix4 r.p_final) ∧
    specPDisp (mkRat 1 100000) = "1.00e-05" ∧
    specPDisp (mkRat 5 10000) = "5.00e-04" ∧
    specPDisp (mkRat 321 10000) = "0.0321" ∧
    specPDisp (mkRat 999 1000) = "0.9990" := by
  obtain ⟨g1, g2, rest, hdd, hr⟩ := analyze_some_shape caps dd r h
  subst hdd; subst hr
  have hm := (analyzeCore_branch caps g1 g2 rest).1
  have hp := (analyzeCore_branch caps g1 g2 rest).2.1
  have hd := (analyzeCore_branch caps g1 g2 rest).2.2.1
  refine ⟨?_, ?_, by decide, by decide, by decide, by decide⟩
  · intro hne
    rw [hm] at hne
    rw [hm, hp, hd] at *
    rcases runBranch_pdisp_char caps g1 g2 rest (all_normal_of caps (g1 :: g2 :: rest))
      (is_equal_var_of caps (g1 :: g2 :: rest)) with ⟨hk, _⟩ | ⟨_, hs⟩
    · exact absurd hk hne
    · exact hs
  · intro heq
    rw [hm] at heq
    rw [hm, hp, hd] at *
    rcases runBranch_pdisp_char caps g1 g2 rest (all_normal_of caps (g1 :: g2 :: rest))
      (is_equal_var_of caps (g1 :: g2 :: rest)) with ⟨_, hk⟩ | ⟨hne, _⟩
    · exact hk
    · exact absurd heq hne

/-- Witness for the amended claim C2 at a concrete input. -/
theorem p_disp_rule_per_branch_witness :
    analyze kwCaps kwData = some (analyzeCore kwCaps ("A", [1, 2, 3]) ("B", [4, 5, 6]) [("C", [7, 8, 9])]) ∧
    ((analyzeCore kwCaps ("A", [1, 2, 3]) ("B", [4, 5, 6]) [("C", [7, 8, 9])]).method = kruskalW →
      (analyzeCore kwCaps ("A", [1, 2, 3]) ("B", [4, 5, 6]) [("C", [7, 8, 9])]).p_disp =
        fix4 (analyzeCore kwCaps ("A", [1, 2, 3]) ("B", [4, 5, 6]) [("C", [7, 8, 9])]).p_final) :=
  ⟨rfl, (p_disp_rule_per_branch kwCaps kwData
    (analyzeCore kwCaps ("A", [1, 2, 3]) ("B", [4, 5, 6]) [("C", [7, 8, 9])]) rfl).2.1⟩

/-! ## Report structure lemmas -/

/-- The report fields are the two templates filled with the run's values. -/
theorem analyzeCore_reports (caps : StatCaps) (g1 g2 : GroupData) (rest : List GroupData) :
    (analyzeCore caps g1 g2 rest).jp_report =
      mkJpReport (analyzeCore caps g1 g2 rest).method (analyzeCore caps g1 g2 rest).jp_reason
        (analyzeCore caps g1 g2 rest).is_sig (analyzeCore caps g1 g2 rest).p_disp ∧
    (analyzeCore caps g1 g2 rest).en_report =
      mkEnReport (analyzeCore caps g1 g2 rest).method (analyzeCore caps g1 g2 rest).en_reason
        (analyzeCore caps g1 g2 rest).is_sig (analyzeCore caps g1 g2 rest).p_disp :=
  ⟨rfl, rfl⟩

/-- The significance flag stored in the result is `p_final < 0.05`. -/
theorem analyzeCore_is_sig (caps : StatCaps) (g1 g2 : GroupData) (rest : List GroupData) :
    (analyzeCore caps g1 g2 rest).is_sig =
      decide ((analyzeCore caps g1 g2 rest).p_final < mkRat 1 20) := rfl

/-- The rationale fields are the selected pair. -/
theorem analyzeCore_reasons (caps : StatCaps) (g1 g2 : GroupData) (rest : List GroupData) :
    (analyzeCore caps g1 g2 rest).jp_reason =
      (selectReason (analyzeCore caps g1 g2 rest).all_normal (analyzeCore caps g1 g2 rest).is_equal_var).1 ∧
    (analyzeCore caps g1 g2 rest).en_reason =
      (selectReason (analyzeCore caps g1 g2 rest).all_normal (analyzeCore caps g1 g2 rest).is_equal_var).2 :=
  ⟨rfl, rfl⟩

/-- The full JP report template text, for a sample filling. -/
theorem mkJpReport_text :
    mkJpReport "X" "Y" true "Z" = "【解析報告書】\n1. 手法: X\n2. 理由: Y\n3. 結果: 有意差あり (P=Z)\n" := rfl

/-- The full EN report template text, for a sample filling. -/
theorem mkEnReport_text :
    mkEnReport "X" "Y" false "Z" = "【Statistical Analysis Report】\n1. Method: X\n2. Rationale: Y\n3. Results: No Significant Difference (P=Z)\n4. Conclusion: Based on the X, the null hypothesis was not rejected.\n" := rfl

/-- The JP report embeds its method, its p-value string and its verdict. -/
theorem mkJpReport_embeds (m jr : String) (sig : Bool) (pd : String) :
    ("1. 手法: " ++ m).data <:+: (mkJpReport m jr sig pd).data ∧
    ("(P=" ++ pd ++ ")").data <:+: (mkJpReport m jr sig pd).data ∧
    (jpVerdict sig).data <:+: (mkJpReport m jr sig pd).data := by
  refine ⟨⟨"【解析報告書】\n".data,
      ("\n" ++ "2. 理由: " ++ jr ++ "\n" ++ "3. 結果: " ++ jpVerdict sig ++ " " ++ "(P=" ++ pd ++ ")" ++ "\n").data, ?_⟩,
    ⟨("【解析報告書】\n" ++ "1. 手法: " ++ m ++ "\n" ++ "2. 理由: " ++ jr ++ "\n" ++ "3. 結果: " ++ jpVerdict sig ++ " ").data,
      "\n".data, ?_⟩,
    ⟨("【解析報告書】\n" ++ "1. 手法: " ++ m ++ "\n" ++ "2. 理由: " ++ jr ++ "\n" ++ "3. 結果: ").data,
      (" " ++ "(P=" ++ pd ++ ")" ++ "\n").data, ?_⟩⟩ <;>
  simp [mkJpReport, String.data_append, List.append_assoc]

/-- The EN report embeds its method, its p-value string and its verdict. -/
theorem mkEnReport_embeds (m enr : String) (sig : Bool) (pd : String) :
    ("1. Method: " ++ m).data <:+: (mkEnReport m enr sig pd).data ∧
    ("(P=" ++ pd ++ ")").data <:+: (mkEnReport m enr sig pd).data ∧
    (enVerdict sig).data <:+: (mkEnReport m enr sig pd).data ∧
    ("2. Rationale: " ++ enr ++ "\n").data <:+: (mkEnReport m enr sig pd).data := by
  refine ⟨⟨"【Statistical Analysis Report】\n".data,
      ("\n" ++ "2. Rationale: " ++ enr ++ "\n" ++ "3. Results: " ++ enVerdict sig ++ " " ++ "(P=" ++ pd ++ ")" ++ "\n" ++
        "4. Conclusion: " ++ "Based on the " ++ m ++ ", the null hypothesis was " ++
        (if sig then "rejected" else "not rejected") ++ "." ++ "\n").data, ?_⟩,
    ⟨("【Statistical Analysis Report】\n" ++ "1. Method: " ++ m ++ "\n" ++ "2. Rationale: " ++ enr ++ "\n" ++
        "3. Results: " ++ enVerdict sig ++ " ").data,
      ("\n" ++ "4. Conclusion: " ++ "Based on the " ++ m ++ ", the null hypothesis was " ++
        (if sig then "rejected" else "not rejected") ++ "." ++ "\n").data, ?_⟩,
    ⟨("【Statistical Analysis Report】\n" ++ "1. Method: " ++ m ++ "\n" ++ "2. Rationale: " ++ enr ++ "\n" ++
        "3. Results: ").data,
      (" " ++ "(P=" ++ pd ++ ")" ++ "\n" ++ "4. Conclusion: " ++ "Based on the " ++ m ++
        ", the null hypothesis was " ++ (if sig then "rejected" else "not rejected") ++ "." ++ "\n").data, ?_⟩,
    ⟨("【Statistical Analysis Report】\n" ++ "1. Method: " ++ m ++ "\n").data,
      ("3. Results: " ++ enVerdict sig ++ " " ++ "(P=" ++ pd ++ ")" ++ "\n" ++ "4. Conclusion: " ++
        "Based on the " ++ m ++ ", the null hypothesis was " ++
        (if sig then "rejected" else "not rejected") ++ "." ++ "\n").data, ?_⟩⟩ <;>
  simp [mkEnReport, String.data_append, List.append_assoc]

/-! ## Claim C6: the two reports agree on the facts -/

/-- Claim C6: the JP and the EN report of one run are built from the same
method, the same significance flag (`p_final < 0.05`) and the same
formatted p-value string: each report embeds that shared method, that
shared p-value string, and its language's verdict for that shared flag. -/
theorem reports_agree (caps : StatCaps) (dd : List GroupData) (r : RunResult)
    (h : analyze caps dd = some r) :
    r.is_sig = decide (r.p_final < mkRat 1 20) ∧
    ("1. 手法: " ++ r.method).data <:+: r.jp_report.data ∧
    ("1. Method: " ++ r.method).data <:+: r.en_report.data ∧
    ("(P=" ++ r.p_disp ++ ")").data <:+: r.jp_report.data ∧
    ("(P=" ++ r.p_disp ++ ")").data <:+: r.en_report.data ∧
    (jpVerdict r.is_sig).data <:+: r.jp_report.data ∧
    (enVerdict r.is_sig).data <:+: r.en_report.data := by
  obtain ⟨g1, g2, rest, hdd, hr⟩ := analyze_some_shape caps dd r h
  subst hdd; subst hr
  rw [(analyzeCore_reports caps g1 g2 rest).1, (analyzeCore_reports caps g1 g2 rest).2]
  have hjp := mkJpReport_embeds (analyzeCore caps g1 g2 rest).method
    (analyzeCore caps g1 g2 rest).jp_reason (analyzeCore caps g1 g2 rest).is_sig
    (analyzeCore caps g1 g2 rest).p_disp
  have hen := mkEnReport_embeds (analyzeCore caps g1 g2 rest).method
    (analyzeCore caps g1 g2 rest).en_reason (analyzeCore caps g1 g2 rest).is_sig
    (analyzeCore caps g1 g2 rest).p_disp
  exact ⟨analyzeCore_is_sig caps g1 g2 rest, hjp.1, hen.1, hjp.2.1, hen.2.1, hjp.2.2, hen.2.2.1⟩

/-- Witness for claim C6 at a concrete input. -/
theorem reports_agree_witness :
    analyze demoCaps demoData = some demoRun ∧
    demoRun.is_sig = decide (demoRun.p_final < mkRat 1 20) ∧
    ("(P=" ++ demoRun.p_disp ++ ")").data <:+: demoRun.jp_report.data ∧
    ("(P=" ++ demoRun.p_disp ++ ")").data <:+: demoRun.en_report.data :=
  ⟨rfl, (reports_agree demoCaps demoData demoRun rfl).1,
    (reports_agree demoCaps demoData demoRun rfl).2.2.2.1,
    (reports_agree demoCaps demoData demoRun rfl).2.2.2.2.1⟩

/-! ## Claim C9: rationale consistency -/

/-- Claim C9: the rationale is selected by the three branches in priority
order (parametric, non-normal, unequal-variance), exactly one of which
applies; whenever the method is Welch or Kruskal-Wallis via the
unequal-variance branch, the EN report's rationale slot carries the
unequal-variance sentence, which differs from the other two sentences. -/
theorem rationale_consistency (caps : StatCaps) (dd : List GroupData) (r : RunResult)
    (h : analyze caps dd = some r) :
    r.en_reason = (if r.all_normal && r.is_equal_var then enReason1
      else if !r.all_normal then enReason2 else enReason3) ∧
    ("2. Rationale: " ++ r.en_reason ++ "\n").data <:+: r.en_report.data ∧
    ((r.method = welchT ∨ (r.method = kruskalW ∧ r.all_normal = true ∧ r.is_equal_var = false)) →
      r.en_reason = enReason3) ∧
    enReason3 ≠ enReason1 ∧ enReason3 ≠ enReason2 ∧ enReason1 ≠ enReason2 := by
  obtain ⟨g1, g2, rest, hdd, hr⟩ := analyze_some_shape caps dd r h
  subst hdd; subst hr
  refine ⟨?_, ?_, ?_, by decide, by decide, by decide⟩
  · rw [(analyzeCore_reasons caps g1 g2 rest).2, analyzeCore_all_normal, analyzeCore_is_equal_var]
    cases all_normal_of caps (g1 :: g2 :: rest) <;>
      cases is_equal_var_of caps (g1 :: g2 :: rest) <;> rfl
  · rw [(analyzeCore_reports caps g1 g2 rest).2]
    exact (mkEnReport_embeds (analyzeCore caps g1 g2 rest).method
      (analyzeCore caps g1 g2 rest).en_reason (analyzeCore caps g1 g2 rest).is_sig
      (analyzeCore caps g1 g2 rest).p_disp).2.2.2
  · intro hyp
    rw [(analyzeCore_reasons caps g1 g2 rest).2, analyzeCore_all_normal, analyzeCore_is_equal_var]
    rcases hyp with hm | ⟨_, han, hev⟩
    · rw [(analyzeCore_branch caps g1 g2 rest).1] at hm
      revert hm
      cases rest with
      | nil =>
        cases all_normal_of caps (g1 :: g2 :: []) <;>
          cases is_equal_var_of caps (g1 :: g2 :: []) <;> intro hm
        · exact absurd hm (show mannWhitney ≠ welchT by decide)
        · exact absurd hm (show mannWhitney ≠ welchT by decide)
        · rfl
        · exact absurd hm (show studentT ≠ welchT by decide)
      | cons g3 tl =>
        cases all_normal_of caps (g1 :: g2 :: g3 :: tl) <;>
          cases is_equal_var_of caps (g1 :: g2 :: g3 :: tl) <;> intro hm
        · exact absurd hm (show kruskalW ≠ welchT by decide)
        · exact absurd hm (show kruskalW ≠ welchT by decide)
        · exact absurd hm (show kruskalW ≠ welchT by decide)
        · exact absurd hm (show anovaTukey ≠ welchT by decide)
    · rw [analyzeCore_all_normal] at han
      rw [analyzeCore_is_equal_var] at hev
      rw [han, hev]
      rfl

/-- Witness for claim C9 at a concrete input. -/
theorem rationale_consistency_witness :
    analyze wCaps demoData = some wRun ∧ wRun.method = welchT ∧ wRun.en_reason = enReason3 :=
  ⟨rfl, rfl, (rationale_consistency wCaps demoData wRun rfl).2.2.1 (Or.inl rfl)⟩

/-! ## Character sets of rendered p-values -/

/-- Digit characters are in the p-value character set. -/
theorem digitArt_chars (n : ℕ) (h : n < 10) : digitArt n ∈ pdispChars := by
  interval_cases n <;> decide

/-- All characters produced by `natDigits` are in the set. -/
theorem natDigits_chars : ∀ f n : ℕ, ∀ c ∈ natDigits f n, c ∈ pdispChars := by
  intro f
  induction f with
  | zero => intro n c hc; simp [natDigits] at hc
  | succ f ih =>
    intro n c hc
    rw [natDigits] at hc
    by_cases h10 : n < 10
    · rw [if_pos h10] at hc
      simp at hc
      subst hc
      exact digitArt_chars n h10
    · rw [if_neg h10] at hc
      rcases List.mem_append.1 hc with h1 | h2
      · exact ih (n / 10) c h1
      · simp at h2
        subst h2
        exact digitArt_chars (n % 10) (Nat.mod_lt n (by omega))

/-- Zero-padding only adds the digit '0'. -/
theorem padZeros_chars (s : List Char) (w : ℕ) (hs : ∀ c ∈ s, c ∈ pdispChars) :
    ∀ c ∈ padZeros s w, c ∈ pdispChars := by
  intro c hc
  rcases List.mem_append.1 hc with h1 | h2
  · have := List.eq_of_mem_replicate h1
    subst this
    decide
  · exact hs c h2

/-- All characters of a `natStr` rendering are in the set. -/
theorem natStr_chars (n : ℕ) : ∀ c ∈ (natStr n).data, c ∈ pdispChars :=
  natDigits_chars (n + 1) n

/-- All characters of `fix4core` are in the set. -/
theorem fix4core_chars (n : ℕ) : ∀ c ∈ (fix4core n).data, c ∈ pdispChars := by
  intro c hc
  rw [fix4core, String.data_append, String.data_append] at hc
  rcases List.mem_append.1 hc with h1 | h2
  · rcases List.mem_append.1 h1 with h3 | h4
    · exact natStr_chars _ c h3
    · simp at h4
      subst h4
      decide
  · exact padZeros_chars _ 4 (natDigits_chars _ _) c h2

/-- All characters of `fix4` are in the set. -/
theorem fix4_chars (x : ℚ) : ∀ c ∈ (fix4 x).data, c ∈ pdispChars := by
  intro c hc
  rw [fix4] at hc
  split at hc
  · rw [String.data_append] at hc
    rcases List.mem_append.1 hc with h1 | h2
    · simp at h1
      subst h1
      decide
    · exact fix4core_chars _ c h2
  · exact fix4core_chars _ c hc

/-- All characters of `mantExp` are in the set. -/
theorem mantExp_chars (r : ℕ) (e : ℤ) : ∀ c ∈ (mantExp r e).data, c ∈ pdispChars := by
  intro c hc
  rw [mantExp] at hc
  repeat rw [String.data_append] at hc
  rcases List.mem_append.1 hc with h1 | h2
  · rcases List.mem_append.1 h1 with h3 | h4
    · rcases List.mem_append.1 h3 with h5 | h6
      · rcases List.mem_append.1 h5 with h7 | h8
        · rcases List.mem_append.1 h7 with h9 | h10
          · exact natStr_chars _ c h9
          · simp at h10; subst h10; decide
        · exact padZeros_chars _ 2 (natDigits_chars _ _) c h8
      · simp at h6; subst h6; decide
    · split at h4 <;> (simp at h4; subst h4; decide)
  · exact padZeros_chars _ 2 (natDigits_chars _ _) c h2

/-- All characters of `sci2pos` are in the set. -/
theorem sci2pos_chars (x : ℚ) : ∀ c ∈ (sci2pos x).data, c ∈ pdispChars := by
  intro c hc
  rw [sci2pos] at hc
  split at hc <;> split at hc <;> exact mantExp_chars _ _ c hc

/-- All characters of `sci2` are in the set. -/
theorem sci2_chars (x : ℚ) : ∀ c ∈ (sci2 x).data, c ∈ pdispChars := by
  intro c hc
  rw [sci2] at hc
  split at hc
  · exact (show ∀ c2 ∈ ("0.00e+00" : String).data, c2 ∈ pdispChars by decide) c hc
  · split at hc
    · rw [String.data_append] at hc
      rcases List.mem_append.1 hc with h1 | h2
      · simp at h1; subst h1; decide
      · exact sci2pos_chars _ c h2
    · exact sci2pos_chars _ c hc

/-- All characters of the rule-formatted p-value are in the set. -/
theorem pdisp_rule_chars (p : ℚ) :
    ∀ c ∈ (if p < mkRat 1 1000 then sci2 p else fix4 p).data, c ∈ pdispChars := by
  split
  · exact sci2_chars p
  · exact fix4_chars p

/-- All characters of the rendered `p_disp` of any branch are in the set. -/
theorem runBranch_pdisp_chars (caps : StatCaps) (g1 g2 : GroupData) (rest : List GroupData)
    (an ev : Bool) : ∀ c ∈ (runBranch caps g1 g2 rest an ev).p_disp.data, c ∈ pdispChars := by
  cases rest with
  | nil =>
    cases an <;> cases ev <;> exact pdisp_rule_chars _
  | cons g3 tl =>
    cases an <;> cases ev
    · exact fix4_chars _
    · exact fix4_chars _
    · exact fix4_chars _
    · exact pdisp_rule_chars _

/-- The method label is always one of the five catalog names. -/
theorem runBranch_method_cases (caps : StatCaps) (g1 g2 : GroupData) (rest : List GroupData)
    (an ev : Bool) :
    (runBranch caps g1 g2 rest an ev).method ∈ [studentT, welchT, mannWhitney, anovaTukey, kruskalW] := by
  cases rest <;> cases an <;> cases ev <;> simp [runBranch]

/-- The JP rationale is always one of the three sentences. -/
theorem selectReason_jp_cases (an ev : Bool) :
    (selectReason an ev).1 ∈ [jpReason1, jpReason2, jpReason3] := by
  cases an <;> cases ev <;> simp [selectReason]

/-- Neither the conclusion kanji 論 nor a capital C occurs anywhere in a JP
report: not in its fixed framing, not in any method label, not in any JP
rationale sentence, not in a verdict, and not in a rendered p-value. -/
theorem jp_report_chars (caps : StatCaps) (g1 g2 : GroupData) (rest : List GroupData) :
    '論' ∉ (analyzeCore caps g1 g2 rest).jp_report.data ∧
    'C' ∉ (analyzeCore caps g1 g2 rest).jp_report.data := by
  have hM : (analyzeCore caps g1 g2 rest).method ∈ [studentT, welchT, mannWhitney, anovaTukey, kruskalW] := by
    rw [(analyzeCore_branch caps g1 g2 rest).1]
    exact runBranch_method_cases caps g1 g2 rest _ _
  have hJR : (analyzeCore caps g1 g2 rest).jp_reason ∈ [jpReason1, jpReason2, jpReason3] := by
    rw [(analyzeCore_reasons caps g1 g2 rest).1]
    exact selectReason_jp_cases _ _
  have hPD : ∀ c ∈ (analyzeCore caps g1 g2 rest).p_disp.data, c ∈ pdispChars := by
    rw [(analyzeCore_branch caps g1 g2 rest).2.2.1]
    exact runBranch_pdisp_chars caps g1 g2 rest _ _
  have hV : ∀ c ∈ (jpVerdict (analyzeCore caps g1 g2 rest).is_sig).data,
      c ∈ ("有意差あり" : String).data ∨ c ∈ ("有意差なし" : String).data := by
    cases (analyzeCore caps g1 g2 rest).is_sig <;> intro c hc
    · exact Or.inr hc
    · exact Or.inl hc
  simp only [List.mem_cons, List.not_mem_nil, or_false] at hM hJR
  rw [(analyzeCore_reports caps g1 g2 rest).1]
  constructor <;> intro hc <;>
    rw [mkJpReport] at hc <;>
    repeat rw [String.data_append] at hc
  case left =>
    simp only [List.mem_append] at hc
    rcases hc with (((((((((((((h | h) | h) | h) | h) | h) | h) | h) | h) | h) | h) | h) | h) | h)
    · exact absurd h (by decide)
    · exact absurd h (by decide)
    · rcases hM with h2 | h2 | h2 | h2 | h2 <;>
        (rw [h2] at h; exact absurd h (by decide))
    · exact absurd h (by decide)
    · exact absurd h (by decide)
    · rcases hJR with h2 | h2 | h2 <;>
        (rw [h2] at h; exact absurd h (by decide))
    · exact absurd h (by decide)
    · exact absurd h (by decide)
    · rcases hV _ h with h2 | h2 <;> exact absurd h2 (by decide)
    · exact absurd h (by decide)
    · exact absurd h (by decide)
    · exact absurd (hPD _ h) (by decide)
    · exact absurd h (by decide)
    · exact absurd h (by decide)
  case right =>
    simp only [List.mem_append] at hc
    rcases hc with (((((((((((((h | h) | h) | h) | h) | h) | h) | h) | h) | h) | h) | h) | h) | h)
    · exact absurd h (by decide)
    · exact absurd h (by decide)
    · rcases hM with h2 | h2 | h2 | h2 | h2 <;>
        (rw [h2] at h; exact absurd h (by decide))
    · exact absurd h (by decide)
    · exact absurd h (by decide)
    · rcases hJR with h2 | h2 | h2 <;>
        (rw [h2] at h; exact absurd h (by decide))
    · exact absurd h (by decide)
    · exact absurd h (by decide)
    · rcases hV _ h with h2 | h2 <;> exact absurd h2 (by decide)
    · exact absurd h (by decide)
    · exact absurd h (by decide)
    · exact absurd (hPD _ h) (by decide)
    · exact absurd h (by decide)
    · exact absurd h (by decide)

/-! ## Claim C5: report sections (corrected)

The EN report has the four numbered sections Method / Rationale / Results /
Conclusion; the JP report (lines 124-128 of `src/app.py`) has only the
three numbered sections 手法 / 理由 / 結果 and no Conclusion section. -/

set_option maxRecDepth 8000 in
/-- Counterexample to claim C5 as stated: on a concrete run the generated
JP report is exactly the three-section text below — it contains no fourth
section and no Conclusion (結論) heading in either language. -/
theorem jp_report_sections_cex :
    (analyze demoCaps demoData).map RunResult.jp_report =
      some "【解析報告書】\n1. 手法: Student\x27s t-test\n2. 理由: データの分布が偏っておらず、バラツキも均一だったため、標準的なt検定/ANOVAを選択しました。\n3. 結果: 有意差あり (P=0.0300)\n" ∧
    ¬ ("結論".data <:+: ("【解析報告書】\n1. 手法: Student\x27s t-test\n2. 理由: データの分布が偏っておらず、バラツキも均一だったため、標準的なt検定/ANOVAを選択しました。\n3. 結果: 有意差あり (P=0.0300)\n" : String).data) ∧
    ¬ ("Conclusion".data <:+: ("【解析報告書】\n1. 手法: Student\x27s t-test\n2. 理由: データの分布が偏っておらず、バラツキも均一だったため、標準的なt検定/ANOVAを選択しました。\n3. 結果: 有意差あり (P=0.0300)\n" : String).data) ∧
    ¬ ("4. ".data <:+: ("【解析報告書】\n1. 手法: Student\x27s t-test\n2. 理由: データの分布が偏っておらず、バラツキも均一だったため、標準的なt検定/ANOVAを選択しました。\n3. 結果: 有意差あり (P=0.0300)\n" : String).data) :=
  ⟨rfl, by decide, by decide, by decide⟩

/-- Claim C5 (amended): every generated EN report contains the four
sections Method, Rationale, Results, Conclusion in that fixed order; every
generated JP report contains the three sections 手法 (method), 理由
(rationale), 結果 (results) in that fixed order and never a Conclusion
(結論) section. -/
theorem report_sections (caps : StatCaps) (dd : List GroupData) (r : RunResult)
    (h : analyze caps dd = some r) :
    (∃ b c d e : List Char, r.en_report.data =
      "【Statistical Analysis Report】\n".data ++ "1. Method: ".data ++ b ++
        "2. Rationale: ".data ++ c ++ "3. Results: ".data ++ d ++ "4. Conclusion: ".data ++ e) ∧
    (∃ b c d : List Char, r.jp_report.data =
      "【解析報告書】\n".data ++ "1. 手法: ".data ++ b ++ "2. 理由: ".data ++ c ++ "3. 結果: ".data ++ d) ∧
    ¬ ("結論".data <:+: r.jp_report.data) ∧
    ¬ ("Conclusion".data <:+: r.jp_report.data) := by
  obtain ⟨g1, g2, rest, hdd, hr⟩ := analyze_some_shape caps dd r h
  subst hdd; subst hr
  refine ⟨?_, ?_, ?_, ?_⟩
  · rw [(analyzeCore_reports caps g1 g2 rest).2]
    refine ⟨((analyzeCore caps g1 g2 rest).method ++ "\n").data,
      ((analyzeCore caps g1 g2 rest).en_reason ++ "\n").data,
      (enVerdict (analyzeCore caps g1 g2 rest).is_sig ++ " " ++ "(P=" ++
        (analyzeCore caps g1 g2 rest).p_disp ++ ")" ++ "\n").data,
      ("Based on the " ++ (analyzeCore caps g1 g2 rest).method ++ ", the null hypothesis was " ++
        (if (analyzeCore caps g1 g2 rest).is_sig then "rejected" else "not rejected") ++ "." ++ "\n").data, ?_⟩
    simp [mkEnReport, String.data_append, List.append_assoc]
  · rw [(analyzeCore_reports caps g1 g2 rest).1]
    refine ⟨((analyzeCore caps g1 g2 rest).method ++ "\n").data,
      ((analyzeCore caps g1 g2 rest).jp_reason ++ "\n").data,
      (jpVerdict (analyzeCore caps g1 g2 rest).is_sig ++ " " ++ "(P=" ++
        (analyzeCore caps g1 g2 rest).p_disp ++ ")" ++ "\n").data, ?_⟩
    simp [mkJpReport, String.data_append, List.append_assoc]
  · intro hinf
    exact (jp_report_chars caps g1 g2 rest).1 (hinf.subset (by decide))
  · intro hinf
    exact (jp_report_chars caps g1 g2 rest).2 (hinf.subset (by decide))

/-- Witness for the amended claim C5 at a concrete input. -/
theorem report_sections_witness :
    analyze demoCaps demoData = some demoRun ∧
    ¬ ("結論".data <:+: demoRun.jp_report.data) ∧
    ¬ ("Conclusion".data <:+: demoRun.jp_report.data) :=
  ⟨rfl, (report_sections demoCaps demoData demoRun rfl).2.2.1,
    (report_sections demoCaps demoData demoRun rfl).2.2.2⟩

/-! ## Claim C10: duplicate group names -/

/-- The function `optOr` with an empty second choice. -/
theorem optOr_none_right {α : Type} (x : Option α) : optOr x none = x := by
  cases x <;> rfl

/-- The function `optOr` keeps a present first choice. -/
theorem optOr_isSome_left {α : Type} (x y : Option α) (h : x.isSome) : optOr x y = x := by
  cases x
  · simp at h
  · rfl

/-- The function `optOr` is associative. -/
theorem optOr_assoc {α : Type} (x y z : Option α) :
    optOr (optOr x y) z = optOr x (optOr y z) := by
  cases x <;> rfl

/-- The function `optOr` commutes with `Option.map`. -/
theorem optOr_map {α β : Type} (f : α → β) (x y : Option α) :
    (optOr x y).map f = optOr (x.map f) (y.map f) := by
  cases x <;> rfl

/-- The last element of a nonempty list, `optOr`-style. -/
theorem getLast?_cons_eq {α : Type} (a : α) (l : List α) :
    (a :: l).getLast? = optOr l.getLast? (some a) := by
  cases l with
  | nil => rfl
  | cons b t =>
    rw [List.getLast?_cons_cons]
    have h : (b :: t).getLast?.isSome := by
      rw [List.getLast?_isSome]
      simp
    exact (optOr_isSome_left _ _ h).symm

/-- The last element of an append, `optOr`-style. -/
theorem getLast?_append_eq {α : Type} (l1 l2 : List α) :
    (l1 ++ l2).getLast? = optOr l2.getLast? l1.getLast? := by
  induction l1 with
  | nil => simp [optOr_none_right]
  | cons a t ih =>
    rw [List.cons_append, getLast?_cons_eq, ih, getLast?_cons_eq, optOr_assoc]

/-- Looking up the key just inserted returns the inserted value. -/
theorem dictLookup_insert_self (d : List GroupData) (k : String) (v : List ℚ) :
    dictLookup k (dictInsert d k v) = some v := by
  induction d with
  | nil => simp [dictInsert, dictLookup]
  | cons q t ih =>
    by_cases hq : q.1 = k
    · simp [dictInsert, hq, dictLookup]
    · simp only [dictInsert, if_neg hq]
      simp only [dictLookup, List.find?] at ih ⊢
      simp [hq, ih]

/-- Inserting one key leaves the lookup of any other key unchanged. -/
theorem dictLookup_insert_ne (d : List GroupData) (k k2 : String) (v : List ℚ)
    (h : k2 ≠ k) : dictLookup k2 (dictInsert d k v) = dictLookup k2 d := by
  induction d with
  | nil => simp [dictInsert, dictLookup, List.find?, Ne.symm h]
  | cons q t ih =>
    by_cases hq : q.1 = k
    · simp only [dictInsert, if_pos hq]
      simp only [dictLookup, List.find?]
      rw [hq]
      simp [Ne.symm h]
    · simp only [dictInsert, if_neg hq]
      by_cases hq2 : q.1 = k2
      · simp [dictLookup, List.find?, hq2]
      · simp only [dictLookup, List.find?] at ih ⊢
        simp [hq2, ih]

/-- The value `data_dict` holds for a key is the value of the key's last
valid occurrence in the supplied list, and the starting dict otherwise. -/
theorem build_lookup (k : String) (l : List GroupData) : ∀ d : List GroupData,
    dictLookup k (List.foldl buildStep d l) =
      optOr (((l.filter fun p => decide (p.1 = k) && decide (3 ≤ p.2.length)).getLast?).map Prod.snd)
        (dictLookup k d) := by
  induction l with
  | nil => intro d; simp [optOr]
  | cons p t ih =>
    intro d
    rw [List.foldl_cons, ih (buildStep d p), List.filter_cons]
    by_cases hp : (decide (p.1 = k) && decide (3 ≤ p.2.length)) = true
    · rw [if_pos hp]
      rw [Bool.and_eq_true, decide_eq_true_eq, decide_eq_true_eq] at hp
      obtain ⟨hpk, hpv⟩ := hp
      rw [getLast?_cons_eq, optOr_map, optOr_assoc]
      have hstep : dictLookup k (buildStep d p) = some p.2 := by
        rw [buildStep, if_pos hpv, ← hpk]
        exact dictLookup_insert_self d p.1 p.2
      rw [hstep]
      rfl
    · rw [if_neg hp]
      have hstep : dictLookup k (buildStep d p) = dictLookup k d := by
        rw [buildStep]
        by_cases hv : 3 ≤ p.2.length
        · rw [if_pos hv]
          have hpk : k ≠ p.1 := by
            intro he
            exact hp (by simp [he.symm, hv])
          exact dictLookup_insert_ne d p.1 k p.2 hpk
        · rw [if_neg hv]
      rw [hstep]

/-- A name in the dict after an insertion was there before or is the key. -/
theorem dictInsert_names_mem (d : List GroupData) (k : String) (v : List ℚ) (x : String)
    (hx : x ∈ (dictInsert d k v).map Prod.fst) : x ∈ d.map Prod.fst ∨ x = k := by
  induction d with
  | nil =>
    simp [dictInsert] at hx
    exact Or.inr hx
  | cons q t ih =>
    by_cases hq : q.1 = k
    · rw [dictInsert, if_pos hq] at hx
      rw [List.map_cons, List.mem_cons] at hx
      rcases hx with hx | hx
      · exact Or.inr hx
      · exact Or.inl (List.mem_cons_of_mem _ hx)
    · rw [dictInsert, if_neg hq] at hx
      rw [List.map_cons, List.mem_cons] at hx
      rcases hx with hx | hx
      · exact Or.inl (by rw [List.map_cons, List.mem_cons]; exact Or.inl hx)
      · rcases ih hx with h | h
        · exact Or.inl (by rw [List.map_cons, List.mem_cons]; exact Or.inr h)
        · exact Or.inr h

/-- Dict insertion preserves uniqueness of the names. -/
theorem dictInsert_names_nodup (d : List GroupData) (k : String) (v : List ℚ)
    (hd : (d.map Prod.fst).Nodup) : ((dictInsert d k v).map Prod.fst).Nodup := by
  induction d with
  | nil => simp [dictInsert]
  | cons q t ih =>
    rw [List.map_cons, List.nodup_cons] at hd
    by_cases hq : q.1 = k
    · rw [dictInsert, if_pos hq]
      rw [List.map_cons, List.nodup_cons]
      exact ⟨hq ▸ hd.1, hd.2⟩
    · rw [dictInsert, if_neg hq]
      rw [List.map_cons, List.nodup_cons]
      refine ⟨?_, ih hd.2⟩
      intro hmem
      rcases dictInsert_names_mem t k v q.1 hmem with h | h
      · exact hd.1 h
      · exact hq h

/-- The names of `data_dict` are unique. -/
theorem build_names_nodup (l : List GroupData) : ∀ d : List GroupData,
    (d.map Prod.fst).Nodup → ((List.foldl buildStep d l).map Prod.fst).Nodup := by
  induction l with
  | nil => intro d hd; exact hd
  | cons p t ih =>
    intro d hd
    rw [List.foldl_cons]
    apply ih
    rw [buildStep]
    split
    · exact dictInsert_names_nodup d p.1 p.2 hd
    · exact hd

/-- Every name in `data_dict` comes from the dict it started from or from a
valid supplied group. -/
theorem build_names_sub (l : List GroupData) : ∀ d : List GroupData,
    ∀ x ∈ (List.foldl buildStep d l).map Prod.fst,
    x ∈ d.map Prod.fst ∨ x ∈ (l.filter fun p => decide (3 ≤ p.2.length)).map Prod.fst := by
  induction l with
  | nil => intro d x hx; exact Or.inl hx
  | cons p t ih =>
    intro d x hx
    rw [List.foldl_cons] at hx
    rcases ih (buildStep d p) x hx with h | h
    · rw [buildStep] at h
      by_cases hv : 3 ≤ p.2.length
      · rw [if_pos hv] at h
        rcases dictInsert_names_mem d p.1 p.2 x h with h2 | h2
        · exact Or.inl h2
        · right
          rw [List.filter_cons, if_pos (by simpa using hv)]
          simp [h2]
      · rw [if_neg hv] at h
        exact Or.inl h
    · right
      rw [List.filter_cons]
      split
      · simp
        right
        simpa using h
      · exact h

/-- Claim C10: when two supplied groups share a name (both with at least 3
values), the analyzed `data_dict` maps that name to the value of its last
valid occurrence — the later supplied values silently replace the earlier
ones — and the dict ends up strictly smaller than the number of valid
supplied groups, so the analysis runs on fewer groups than were supplied. -/
theorem duplicate_name_replaces (xs ys zs : List GroupData) (n : String) (v w : List ℚ)
    (hv : 3 ≤ v.length) (hw : 3 ≤ w.length) :
    dictLookup n (buildDataDict (xs ++ (n, v) :: (ys ++ (n, w) :: zs))) =
      optOr (((zs.filter fun p => decide (p.1 = n) && decide (3 ≤ p.2.length)).getLast?).map Prod.snd)
        (some w) ∧
    (buildDataDict (xs ++ (n, v) :: (ys ++ (n, w) :: zs))).length <
      ((xs ++ (n, v) :: (ys ++ (n, w) :: zs)).filter fun p => decide (3 ≤ p.2.length)).length := by
  constructor
  · rw [buildDataDict, build_lookup n _ []]
    rw [show dictLookup n ([] : List GroupData) = none from rfl, optOr_none_right]
    rw [List.filter_append, List.filter_cons, List.filter_append, List.filter_cons]
    rw [if_pos (show (decide ((n, v).1 = n) && decide (3 ≤ (n, v).2.length)) = true by simp [hv]),
      if_pos (show (decide ((n, w).1 = n) && decide (3 ≤ (n, w).2.length)) = true by simp [hw])]
    rw [getLast?_append_eq, getLast?_cons_eq, getLast?_append_eq, getLast?_cons_eq]
    have hS : (optOr ((zs.filter fun p => decide (p.1 = n) && decide (3 ≤ p.2.length)).getLast?)
        (some (n, w))).isSome = true := by
      cases (zs.filter fun p => decide (p.1 = n) && decide (3 ≤ p.2.length)).getLast? <;>
        simp [optOr]
    rw [optOr_isSome_left _ _ hS, optOr_isSome_left _ _ hS, optOr_isSome_left _ _ hS, optOr_map]
    rfl
  · have hnodup : ((buildDataDict (xs ++ (n, v) :: (ys ++ (n, w) :: zs))).map Prod.fst).Nodup :=
      build_names_nodup _ [] (by simp)
    have hsub : ∀ x ∈ (buildDataDict (xs ++ (n, v) :: (ys ++ (n, w) :: zs))).map Prod.fst,
        x ∈ (((xs ++ (n, v) :: (ys ++ (n, w) :: zs)).filter
          fun p => decide (3 ≤ p.2.length)).map Prod.fst) := by
      intro x hx
      rcases build_names_sub _ [] x hx with h | h
      · simp at h
      · exact h
    have hcard1 : ((buildDataDict (xs ++ (n, v) :: (ys ++ (n, w) :: zs))).map Prod.fst).toFinset.card =
        ((buildDataDict (xs ++ (n, v) :: (ys ++ (n, w) :: zs))).map Prod.fst).length :=
      List.toFinset_card_of_nodup hnodup
    have hsub2 : ((buildDataDict (xs ++ (n, v) :: (ys ++ (n, w) :: zs))).map Prod.fst).toFinset ⊆
        (((xs ++ (n, v) :: (ys ++ (n, w) :: zs)).filter
          fun p => decide (3 ≤ p.2.length)).map Prod.fst).toFinset := by
      intro x hx
      rw [List.mem_toFinset] at hx ⊢
      exact hsub x hx
    have hcard2 : (((xs ++ (n, v) :: (ys ++ (n, w) :: zs)).filter
        fun p => decide (3 ≤ p.2.length)).map Prod.fst).toFinset.card =
        (((xs ++ (n, v) :: (ys ++ (n, w) :: zs)).filter
          fun p => decide (3 ≤ p.2.length)).map Prod.fst).dedup.length :=
      List.card_toFinset _
    have hdup : ¬ (((xs ++ (n, v) :: (ys ++ (n, w) :: zs)).filter
        fun p => decide (3 ≤ p.2.length)).map Prod.fst).Nodup := by
      intro hn
      have hcount := List.nodup_iff_count_le_one.1 hn n
      have h2 : 2 ≤ (((xs ++ (n, v) :: (ys ++ (n, w) :: zs)).filter
          fun p => decide (3 ≤ p.2.length)).map Prod.fst).count n := by
        rw [List.filter_append, List.filter_cons, List.filter_append, List.filter_cons]
        rw [if_pos (by simpa using hv), if_pos (by simpa using hw)]
        simp [List.count_append, List.count_cons]
        omega
      omega
    have hlt : (((xs ++ (n, v) :: (ys ++ (n, w) :: zs)).filter
        fun p => decide (3 ≤ p.2.length)).map Prod.fst).dedup.length <
        (((xs ++ (n, v) :: (ys ++ (n, w) :: zs)).filter
          fun p => decide (3 ≤ p.2.length)).map Prod.fst).length := by
      have hsubl := List.dedup_sublist (((xs ++ (n, v) :: (ys ++ (n, w) :: zs)).filter
        fun p => decide (3 ≤ p.2.length)).map Prod.fst)
      rcases Nat.eq_or_lt_of_le hsubl.length_le with heq | hltt
      · exfalso
        have heqL := hsubl.eq_of_length heq
        have hnn := List.nodup_dedup (((xs ++ (n, v) :: (ys ++ (n, w) :: zs)).filter
          fun p => decide (3 ≤ p.2.length)).map Prod.fst)
        rw [heqL] at hnn
        exact hdup hnn
      · exact hltt
    have hle := Finset.card_le_card hsub2
    rw [hcard1, hcard2] at hle
    have hL1 : ((buildDataDict (xs ++ (n, v) :: (ys ++ (n, w) :: zs))).map Prod.fst).length =
        (buildDataDict (xs ++ (n, v) :: (ys ++ (n, w) :: zs))).length := List.length_map _ _
    have hL2 : (((xs ++ (n, v) :: (ys ++ (n, w) :: zs)).filter
        fun p => decide (3 ≤ p.2.length)).map Prod.fst).length =
        ((xs ++ (n, v) :: (ys ++ (n, w) :: zs)).filter
          fun p => decide (3 ≤ p.2.length)).length := List.length_map _ _
    omega

/-- Witness for claim C10 at a concrete input: two groups both named "A". -/
theorem duplicate_name_replaces_witness :
    (3 ≤ ([1, 2, 3] : List ℚ).length ∧ 3 ≤ ([4, 5, 6] : List ℚ).length) ∧
    dictLookup "A" (buildDataDict [("A", [1, 2, 3]), ("A", [4, 5, 6])]) = some [4, 5, 6] ∧
    (buildDataDict [("A", [1, 2, 3]), ("A", [4, 5, 6])]).length <
      ([("A", [1, 2, 3]), ("A", [4, 5, 6])].filter fun p => decide (3 ≤ p.2.length)).length :=
  ⟨⟨by decide, by decide⟩,
    (duplicate_name_replaces [] [] [] "A" [1, 2, 3] [4, 5, 6] (by decide) (by decide)).1,
    (duplicate_name_replaces [] [] [] "A" [1, 2, 3] [4, 5, 6] (by decide) (by decide)).2⟩
